import Mathlib

/-!
Verification of the audio core of `cd-aux-player` (`src/app/audio.py`).

The embedding below translates the pure computational content of
`AudioManager` into Lean: sample values and gains are rationals (the
Python code computes with IEEE floats; every formula in the gain curve,
the equalizer band masks, and the int16 conversion is rational
arithmetic, so the rational embedding tracks the source formulas
exactly), decibel values are reals, and Python exceptions are modelled
with `Except`.  External collaborators (Qt device objects, numpy FFT
kernels, codec tables of the Python standard library) are abstracted as
function parameters; everything written in `audio.py` itself is
translated line by line.
-/

namespace CdAux

/-- Mutable state of `AudioManager` relevant to the gain claims:
`_gain`, `_volume_sensitivity` and `_eq_gains` (`audio.py` lines 44-50). -/
structure AudioManager where
  gain : ℚ
  volume_sensitivity : ℚ
  eq_gains : List ℚ
deriving DecidableEq

/-- `AudioManager.__init__`: `_gain = 1.0`, `_volume_sensitivity = 0.5`,
`_eq_gains = [0.0] * 10` (`audio.py` lines 44-50). -/
def initManager : AudioManager :=
  { gain := 1, volume_sensitivity := 0.5, eq_gains := List.replicate 10 0 }

/-- `AudioManager.set_gain` (`audio.py` lines 221-232).  The Python code
assigns `self._gain` in each branch; the embedding collects the three
branch values into one expression assigned to the `gain` field. -/
def AudioManager.set_gain (m : AudioManager) (gain_percent : ℤ) : AudioManager :=
  { m with gain :=
      if gain_percent = 0 then 0
      else
        let normalized : ℚ := (gain_percent : ℚ) / 50
        let sensitivity_factor : ℚ := 0.3 + m.volume_sensitivity * 0.7
        if normalized ≤ 1 then normalized ^ 2 * sensitivity_factor
        else
          let max_boost : ℚ := 1 + m.volume_sensitivity * 3
          sensitivity_factor + (normalized - 1) * (max_boost - sensitivity_factor) }

/-- `AudioManager.set_volume_sensitivity` (`audio.py` lines 234-235):
stores the sensitivity and touches nothing else. -/
def AudioManager.set_volume_sensitivity (m : AudioManager) (sensitivity : ℚ) : AudioManager :=
  { m with volume_sensitivity := sensitivity }

/-- The two-segment gain curve exactly as the specification words it
(section 4.4 GainStage): `percent == 0` gives 0; otherwise with
`normalized = percent / 50.0` and `sensitivityFactor = 0.3 + 0.7*sensitivity`,
the quadratic branch below `normalized = 1` and the linear interpolation
up to `maxBoost = 1.0 + 3.0*sensitivity` above it. -/
def specGainCurve (percent : ℤ) (sensitivity : ℚ) : ℚ :=
  if percent = 0 then 0
  else
    let normalized : ℚ := (percent : ℚ) / 50
    let sensitivityFactor : ℚ := 0.3 + 0.7 * sensitivity
    if normalized ≤ 1 then normalized ^ 2 * sensitivityFactor
    else sensitivityFactor + (normalized - 1) * ((1 + 3 * sensitivity) - sensitivityFactor)

/-- The gain value as a function of the normalized position
`x = percent / 50`, used to analyse monotonicity of the curve. -/
def branchGain (s x : ℚ) : ℚ :=
  if x ≤ 1 then x ^ 2 * (0.3 + s * 0.7)
  else (0.3 + s * 0.7) + (x - 1) * ((1 + s * 3) - (0.3 + s * 0.7))

theorem set_gain_gain_eq (m : AudioManager) (p : ℤ) (hp : p ≠ 0) :
    (m.set_gain p).gain = branchGain m.volume_sensitivity ((p : ℚ) / 50) := by
  simp only [AudioManager.set_gain, branchGain, if_neg hp]

theorem branchGain_mono (s a b : ℚ) (hs0 : 0 ≤ s) (ha : 0 ≤ a) (hab : a ≤ b) :
    branchGain s a ≤ branchGain s b := by
  have hsf : (0 : ℚ) ≤ 0.3 + s * 0.7 := by linarith
  have hd : (0 : ℚ) ≤ (1 + s * 3) - (0.3 + s * 0.7) := by linarith
  unfold branchGain
  split_ifs with h1 h2 h2
  · have hsq : a ^ 2 ≤ b ^ 2 := by nlinarith
    nlinarith
  · have hsq : a ^ 2 ≤ 1 := by nlinarith
    have hb1 : (0 : ℚ) ≤ b - 1 := by linarith
    nlinarith [mul_nonneg hb1 hd]
  · linarith
  · nlinarith [mul_nonneg (sub_nonneg.2 hab) hd]

/-- C1: for every integer percent and every sensitivity in `[0,1]`,
`set_gain` stores exactly the two-segment curve of the specification:
0 at percent 0, the quadratic branch `normalized^2 * sensitivityFactor`
for `normalized ≤ 1`, and the linear interpolation towards
`maxBoost = 1 + 3*sensitivity` above it. -/
theorem set_gain_matches_spec_curve (m : AudioManager) (percent : ℤ)
    (hs0 : 0 ≤ m.volume_sensitivity) (hs1 : m.volume_sensitivity ≤ 1) :
    (m.set_gain percent).gain = specGainCurve percent m.volume_sensitivity := by
  simp only [AudioManager.set_gain, specGainCurve]
  split_ifs <;> ring

theorem set_gain_matches_spec_curve_witness :
    (0 : ℚ) ≤ initManager.volume_sensitivity ∧ initManager.volume_sensitivity ≤ 1 ∧
      (initManager.set_gain 75).gain = specGainCurve 75 initManager.volume_sensitivity :=
  ⟨by norm_num [initManager], by norm_num [initManager],
    set_gain_matches_spec_curve initManager 75 (by norm_num [initManager])
      (by norm_num [initManager])⟩

/-- C3: for sensitivity in `[0,1]` the curve is continuous at percent 50 -
the quadratic branch value stored by `set_gain 50` equals
`sensitivityFactor`, and the interpolation branch formula evaluated at
`normalized = 1` yields the same value - and the stored gain is
monotonically non-decreasing in percent over `[1,100]`. -/
theorem set_gain_continuous_at_50_and_monotone (m : AudioManager) (p q : ℤ)
    (hs0 : 0 ≤ m.volume_sensitivity) (hs1 : m.volume_sensitivity ≤ 1)
    (hp : 1 ≤ p) (hpq : p ≤ q) (hq : q ≤ 100) :
    (m.set_gain 50).gain = 0.3 + m.volume_sensitivity * 0.7 ∧
      (0.3 + m.volume_sensitivity * 0.7) +
          ((1 : ℚ) - 1) * ((1 + m.volume_sensitivity * 3) - (0.3 + m.volume_sensitivity * 0.7))
        = 0.3 + m.volume_sensitivity * 0.7 ∧
      (m.set_gain p).gain ≤ (m.set_gain q).gain := by
  refine ⟨?_, by ring, ?_⟩
  · rw [set_gain_gain_eq m 50 (by norm_num)]
    norm_num [branchGain]
  · have hp0 : p ≠ 0 := by omega
    have hq0 : q ≠ 0 := by omega
    rw [set_gain_gain_eq m p hp0, set_gain_gain_eq m q hq0]
    have hpc : (0 : ℚ) ≤ (p : ℚ) / 50 := by
      apply div_nonneg _ (by norm_num)
      exact_mod_cast (by omega : (0 : ℤ) ≤ p)
    have hpq2 : (p : ℚ) / 50 ≤ (q : ℚ) / 50 := by
      apply div_le_div_of_nonneg_right ?_ (by norm_num)
      exact_mod_cast hpq
    exact branchGain_mono m.volume_sensitivity _ _ hs0 hpc hpq2

theorem set_gain_continuous_at_50_and_monotone_witness :
    (initManager.set_gain 10).gain ≤ (initManager.set_gain 90).gain :=
  (set_gain_continuous_at_50_and_monotone initManager 10 90
      (by norm_num [initManager]) (by norm_num [initManager])
      (by norm_num) (by norm_num) (by norm_num)).2.2

/-- C8 counterexample: starting from the initial state (sensitivity 0.5),
`set_gain 50` stores gain `0.65`; a subsequent `set_volume_sensitivity 1`
leaves the stored multiplier at `0.65`, which differs from the curve at
the most recently set percent (50) and sensitivity (1), namely `1`. -/
theorem sensitivity_update_leaves_stale_gain :
    ((initManager.set_gain 50).set_volume_sensitivity 1).gain ≠ specGainCurve 50 1 := by
  norm_num [initManager, AudioManager.set_gain, AudioManager.set_volume_sensitivity, specGainCurve]

/-- C8 amended: `set_gain` stores the curve evaluated at the given percent
and the sensitivity current at that moment, while `set_volume_sensitivity`
only records the new sensitivity and leaves the stored multiplier
unchanged - the multiplier therefore reflects the sensitivity at the time
of the last `set_gain` call, not necessarily the current one. -/
theorem gain_state_update_behavior (m : AudioManager) (p : ℤ) (s : ℚ) :
    (m.set_gain p).gain = specGainCurve p m.volume_sensitivity ∧
      (m.set_volume_sensitivity s).gain = m.gain ∧
      (m.set_volume_sensitivity s).volume_sensitivity = s := by
  refine ⟨?_, rfl, rfl⟩
  simp only [AudioManager.set_gain, specGainCurve]
  split_ifs <;> ring

/-! ## Equalizer (`AudioManager._apply_eq`, `audio.py` lines 150-179)

The numpy FFT kernels are external library code; they enter the
embedding as function parameters `rfft` and `irfft` which may fail
(`Except`), mirroring the `try`/`except` in `_apply_eq` that catches any
numerical error of the transform.  The linear gain `10 ** (gain_db / 20)`
is an irrational power computed by Python's float `**`; it is abstracted
as a parameter `gainLin : ℚ → α` applied to the decibel gain, and the
frequency bins live in an arbitrary monoid `α` (the complex numbers in
the real program). -/

/-- `self._eq_frequencies` (`audio.py` line 49). -/
def eq_frequencies : List ℚ := [31, 63, 125, 250, 500, 1000, 2000, 4000, 8000, 16000]

/-- `np.fft.rfftfreq(n, d) = arange(n // 2 + 1) / (d * n)`, the cached
`self._fft_freqs_cache[data_len]` of `audio.py` lines 157-160. -/
def rfftfreq (n : ℕ) (d : ℚ) : List ℚ :=
  (List.range (n / 2 + 1)).map fun k : ℕ => (k : ℚ) / (d * n)

theorem length_rfftfreq (n : ℕ) (d : ℚ) : (rfftfreq n d).length = n / 2 + 1 := by
  unfold rfftfreq
  rw [List.length_map, List.length_range]

/-- The band mask of `audio.py` lines 167-172: bin frequency `f` is
selected for center frequency `center_freq` when it lies within
`[center_freq - bandwidth/2, center_freq + bandwidth/2]` with
`bandwidth = center_freq / 1.414`. -/
def bandContains (center_freq f : ℚ) : Bool :=
  let bandwidth := center_freq / 1.414
  let lower := center_freq - bandwidth / 2
  let upper := center_freq + bandwidth / 2
  decide (lower ≤ f) && decide (f ≤ upper)

/-- `fft_data[mask] *= gain_linear` (`audio.py` line 174) for one band:
every bin whose frequency the band covers is multiplied by the linear
gain of the band. -/
def applyBand {α : Type} (gainLin : ℚ → α) [Mul α] (freqs : List ℚ) (fft_data : List α)
    (center_freq gain_db : ℚ) : List α :=
  List.zipWith (fun f x => if bandContains center_freq f then x * gainLin gain_db else x)
    freqs fft_data

/-- The band loop of `audio.py` lines 163-174: bands are visited in table
order, a band with `gain_db == 0.0` is skipped (`continue`), every other
band multiplies its covered bins in place. -/
def applyBands {α : Type} (gainLin : ℚ → α) [Mul α] (freqs : List ℚ) (fft_data : List α) :
    List (ℚ × ℚ) → List α
  | [] => fft_data
  | band :: rest =>
      applyBands gainLin freqs
        (if band.2 = 0 then fft_data else applyBand gainLin freqs fft_data band.1 band.2) rest

/-- `AudioManager._apply_eq` (`audio.py` lines 150-179): fast path when
all gains are zero, otherwise forward transform, band loop, inverse
transform at the original length, and pass-through of the input if
either transform fails (the `except` clause). -/
def apply_eq {α : Type} [Mul α] (gainLin : ℚ → α) (rfft : List ℚ → Except String (List α))
    (irfft : List α → ℕ → Except String (List ℚ)) (sample_rate : ℚ)
    (eq_gains audio_data : List ℚ) : List ℚ :=
  if eq_gains.all fun g => decide (g = 0) then audio_data
  else
    let data_len := audio_data.length
    let freqs := rfftfreq data_len (1 / sample_rate)
    match rfft audio_data with
    | .error _ => audio_data
    | .ok fft_data =>
        match irfft (applyBands gainLin freqs fft_data (eq_frequencies.zip eq_gains)) data_len with
        | .error _ => audio_data
        | .ok out => out

/-- The specification's description of the spectral action: each bin is
multiplied once per covering band with non-zero gain, so overlapping
bands compound multiplicatively, in table order. -/
def bandsProduct {α : Type} [Monoid α] (gainLin : ℚ → α) (bands : List (ℚ × ℚ)) (f : ℚ) : α :=
  ((bands.filter fun band => decide (band.2 ≠ 0) && bandContains band.1 f).map
    fun band => gainLin band.2).prod

theorem zipWith_snd_of_le {β γ : Type} (l1 : List γ) (l2 : List β)
    (h : l2.length ≤ l1.length) : List.zipWith (fun _ x => x) l1 l2 = l2 := by
  induction l1 generalizing l2 with
  | nil =>
      cases l2 with
      | nil => rfl
      | cons b l2 => simp at h
  | cons a l1 ih =>
      cases l2 with
      | nil => rfl
      | cons b l2 => simpa using ih l2 (by simpa using h)

theorem zipWith_zipWith_left {β γ δ ε : Type} (f : γ → δ → ε) (g : γ → β → δ)
    (l : List γ) (l2 : List β) :
    List.zipWith f l (List.zipWith g l l2) = List.zipWith (fun a x => f a (g a x)) l l2 := by
  induction l generalizing l2 with
  | nil => rfl
  | cons a l ih =>
      cases l2 with
      | nil => rfl
      | cons b l2 => simp [ih]

theorem applyBands_eq_zipWith {α : Type} [Monoid α] (gainLin : ℚ → α) (bands : List (ℚ × ℚ)) :
    ∀ (freqs : List ℚ) (acc : List α), acc.length = freqs.length →
      applyBands gainLin freqs acc bands =
        List.zipWith (fun f x => x * bandsProduct gainLin bands f) freqs acc := by
  induction bands with
  | nil =>
      intro freqs acc h
      have : List.zipWith (fun (f : ℚ) (x : α) => x * bandsProduct gainLin [] f) freqs acc =
          List.zipWith (fun _ x => x) freqs acc := by
        simp [bandsProduct]
      rw [applyBands, this, zipWith_snd_of_le freqs acc h.le]
  | cons b bs ih =>
      intro freqs acc h
      by_cases hb : b.2 = 0
      · rw [applyBands, if_pos hb, ih freqs acc h]
        have : ∀ f : ℚ, bandsProduct gainLin (b :: bs) f = bandsProduct gainLin bs f := by
          intro f
          simp [bandsProduct, List.filter_cons, hb]
        simp only [this]
      · rw [applyBands, if_neg hb]
        have hlen2 : (applyBand gainLin freqs acc b.1 b.2).length = freqs.length := by
          simp [applyBand, h]
        rw [ih freqs _ hlen2]
        unfold applyBand
        rw [zipWith_zipWith_left]
        have hfun : (fun (f : ℚ) (x : α) =>
            (if bandContains b.1 f then x * gainLin b.2 else x) * bandsProduct gainLin bs f) =
            fun f x => x * bandsProduct gainLin (b :: bs) f := by
          funext f x
          by_cases hc : bandContains b.1 f
          · simp [bandsProduct, List.filter_cons, hb, hc, mul_assoc]
          · simp [bandsProduct, List.filter_cons, hb, hc]
        rw [hfun]

/-- C2: with at least one non-zero gain among the 10 band gains,
`_apply_eq` equals: forward transform, then pointwise multiplication of
each bin by the product of the linear gains of all non-zero bands whose
`[center - bandwidth/2, center + bandwidth/2]` window (with
`bandwidth = center / 1.414`) contains the bin frequency - one factor
per covering band, compounding multiplicatively - then the inverse
transform at the original buffer length. -/
theorem apply_eq_band_multiplication {α : Type} [Monoid α] (gainLin : ℚ → α)
    (rfft : List ℚ → Except String (List α)) (irfft : List α → ℕ → Except String (List ℚ))
    (sample_rate : ℚ) (eq_gains audio_data : List ℚ) (fft_data : List α)
    (hten : eq_gains.length = 10)
    (hnz : ∃ g ∈ eq_gains, g ≠ 0)
    (hfft : rfft audio_data = .ok fft_data)
    (hlen : fft_data.length = audio_data.length / 2 + 1) :
    apply_eq gainLin rfft irfft sample_rate eq_gains audio_data =
      match irfft
          (List.zipWith (fun f x => x * bandsProduct gainLin (eq_frequencies.zip eq_gains) f)
            (rfftfreq audio_data.length (1 / sample_rate)) fft_data)
          audio_data.length with
      | .error _ => audio_data
      | .ok out => out := by
  have hall : ¬ (eq_gains.all fun g => decide (g = 0)) = true := by
    simp only [List.all_eq_true, decide_eq_true_eq]
    intro hz
    obtain ⟨g, hg, hgne⟩ := hnz
    exact hgne (hz g hg)
  unfold apply_eq
  rw [if_neg hall]
  simp only [hfft]
  rw [applyBands_eq_zipWith gainLin _ _ _ (by rw [hlen, length_rfftfreq])]

theorem apply_eq_band_multiplication_witness :
    apply_eq (fun db => db + 2) (fun _ => Except.ok [(5 : ℚ), 7, 9])
        (fun l _ => Except.ok l) 32000 [0, 0, 0, 0, 0, 0, 0, 0, 6, 0] [1, 2, 3, 4] =
      [5, 56, 9] := by
  have h := apply_eq_band_multiplication (fun db => db + 2)
    (fun _ => Except.ok [(5 : ℚ), 7, 9]) (fun l _ => Except.ok l) 32000
    [0, 0, 0, 0, 0, 0, 0, 0, 6, 0] [1, 2, 3, 4] [(5 : ℚ), 7, 9]
    (by norm_num) ⟨6, by norm_num, by norm_num⟩ rfl (by norm_num)
  rw [h]
  norm_num [rfftfreq, List.range_succ, bandsProduct, eq_frequencies, List.filter_cons,
    bandContains]

/-- C6: if every band gain is exactly zero, `_apply_eq` returns the input
buffer unchanged, for arbitrary transform kernels - the fast path never
invokes the frequency-domain transform. -/
theorem apply_eq_all_zero_identity {α : Type} [Monoid α] (gainLin : ℚ → α)
    (rfft : List ℚ → Except String (List α)) (irfft : List α → ℕ → Except String (List ℚ))
    (sample_rate : ℚ) (eq_gains audio_data : List ℚ)
    (hz : ∀ g ∈ eq_gains, g = 0) :
    apply_eq gainLin rfft irfft sample_rate eq_gains audio_data = audio_data := by
  unfold apply_eq
  rw [if_pos]
  simp only [List.all_eq_true, decide_eq_true_eq]
  exact hz

theorem apply_eq_all_zero_identity_witness :
    apply_eq (fun db => db + 2) (fun _ => Except.error "never called")
        (fun _ _ => Except.error "never called") 44100
        [0, 0, 0, 0, 0, 0, 0, 0, 0, 0] [1, 2, 3] = [(1 : ℚ), 2, 3] :=
  apply_eq_all_zero_identity _ _ _ _ _ _ (by norm_num)

/-! ## Per-buffer callback (`AudioManager._process_audio`, `audio.py` lines 181-219)

The chunk delivered by `readAll()` is modelled as the list of its int16
samples.  The stereo downmix `(left + right) / 2` is a numpy elementwise
addition, which raises on operand shape mismatch; that fallible step is
the `Except` in `stereo_mono` (numpy would additionally broadcast a
length-one operand, a shape that never arises from whole interleaved
frames and is not modelled).  Decibel values are real numbers, so the
level computation lives in `ℝ`; Python floats have no other role in the
claims checked here. -/

/-- `audio_float[0::2]`, the even-indexed samples (left channel). -/
def evens : List ℚ → List ℚ
  | [] => []
  | [a] => [a]
  | a :: _ :: rest => a :: evens rest

/-- `audio_float[1::2]`, the odd-indexed samples (right channel). -/
def odds : List ℚ → List ℚ
  | [] => []
  | [_] => []
  | _ :: b :: rest => b :: odds rest

/-- The slice assignments `audio_float[0::2] = left_eq` and
`audio_float[1::2] = right_eq` (`audio.py` lines 207-208) re-interleave
the two processed channels. -/
def interleave : List ℚ → List ℚ → List ℚ
  | [], _ => []
  | a :: _, [] => [a]
  | a :: xs, b :: ys => a :: b :: interleave xs ys

/-- `mono = (left + right) / 2` (`audio.py` line 194): numpy elementwise
addition of the two channel arrays, raising on shape mismatch. -/
def stereo_mono (audio_float : List ℚ) : Except String (List ℚ) :=
  let left := evens audio_float
  let right := odds audio_float
  if left.length = right.length then
    .ok (List.zipWith (fun l r => (l + r) / 2) left right)
  else .error "operands could not be broadcast"

/-- `rms = np.sqrt(np.mean(mono ** 2))` (`audio.py` line 195). -/
noncomputable def rms (mono : List ℚ) : ℝ :=
  Real.sqrt ((mono.map fun x : ℚ => ((x : ℝ)) ^ 2).sum / mono.length)

/-- `db_level = 20 * np.log10(max(rms, 1e-10))` (`audio.py` line 199). -/
noncomputable def db_level (r : ℝ) : ℝ :=
  20 * Real.logb 10 (max r 1e-10)

/-- `np.clip(x, -1.0, 1.0)` (`audio.py` line 212). -/
def np_clip (x : ℚ) : ℚ := min (max x (-1)) 1

/-- `.astype(np.int16)` after multiplication by 32767 (`audio.py` line
213): C-style float-to-integer conversion truncates toward zero; the
preceding clip keeps every value inside the int16 range, so no wrapping
is modelled. -/
def astype_int16 (q : ℚ) : ℤ := if 0 ≤ q then ⌊q⌋ else ⌈q⌉

/-- Observable effects of one `_process_audio` invocation: the decibel
value emitted through `rms_level_changed` and the samples written to the
output device. -/
structure ProcessOut where
  emitted : Option ℝ
  written : Option (List ℤ)

/-- The body of `_process_audio` inside its `try` block (`audio.py`
lines 182-216): empty-chunk early return, int16-to-float conversion,
stereo downmix and level metering, gain, per-channel equalizer, clip,
int16 conversion, conditional write. -/
noncomputable def process_audio_body {α : Type} [Mul α] (gainLin : ℚ → α)
    (rfft : List ℚ → Except String (List α)) (irfft : List α → ℕ → Except String (List ℚ))
    (gain sample_rate : ℚ) (eq_gains : List ℚ) (channels : ℕ) (io_out : Bool)
    (chunk : List ℤ) : Except String ProcessOut :=
  if chunk.isEmpty then .ok ⟨none, none⟩
  else
    let audio_float := chunk.map fun s : ℤ => (s : ℚ) / 32768
    match (if channels = 2 then stereo_mono audio_float else .ok audio_float :
        Except String (List ℚ)) with
    | .error e => .error e
    | .ok mono =>
        let db := db_level (rms mono)
        let gained := audio_float.map fun x => x * gain
        let eq_out :=
          if channels = 2 then
            interleave (apply_eq gainLin rfft irfft sample_rate eq_gains (evens gained))
              (apply_eq gainLin rfft irfft sample_rate eq_gains (odds gained))
          else apply_eq gainLin rfft irfft sample_rate eq_gains gained
        let output := eq_out.map fun x => astype_int16 (np_clip x * 32767)
        .ok ⟨some db, if io_out then some output else none⟩

/-- `_process_audio` with its outer `except` clause (`audio.py` lines
218-219): any exception of the body is caught and logged, the callback
returns normally with no effect, the stream state is untouched. -/
noncomputable def process_audio {α : Type} [Mul α] (gainLin : ℚ → α)
    (rfft : List ℚ → Except String (List α)) (irfft : List α → ℕ → Except String (List ℚ))
    (gain sample_rate : ℚ) (eq_gains : List ℚ) (channels : ℕ) (io_out : Bool)
    (chunk : List ℤ) : ProcessOut :=
  match process_audio_body gainLin rfft irfft gain sample_rate eq_gains channels io_out chunk with
  | .ok out => out
  | .error _ => ⟨none, none⟩

theorem evens_length : ∀ l : List ℚ, (evens l).length = (l.length + 1) / 2
  | [] => by norm_num [evens]
  | [_] => by norm_num [evens]
  | _ :: _ :: rest => by
      simp only [evens, List.length_cons, evens_length rest]
      omega

theorem odds_length : ∀ l : List ℚ, (odds l).length = l.length / 2
  | [] => by norm_num [odds]
  | [_] => by norm_num [odds]
  | _ :: _ :: rest => by
      simp only [odds, List.length_cons, odds_length rest]
      omega

theorem mem_evens_of : ∀ {l : List ℚ} {x : ℚ}, x ∈ evens l → x ∈ l
  | [], _, h => by simp [evens] at h
  | [a], _, h => by simpa [evens] using h
  | a :: b :: rest, x, h => by
      simp only [evens, List.mem_cons] at h ⊢
      rcases h with h | h
      · exact Or.inl h
      · exact Or.inr (Or.inr (mem_evens_of h))

theorem mem_odds_of : ∀ {l : List ℚ} {x : ℚ}, x ∈ odds l → x ∈ l
  | [], _, h => by simp [odds] at h
  | [a], _, h => by simp [odds] at h
  | a :: b :: rest, x, h => by
      simp only [odds, List.mem_cons] at h ⊢
      rcases h with h | h
      · exact Or.inr (Or.inl h)
      · exact Or.inr (Or.inr (mem_odds_of h))

theorem zipWith_avg_zero : ∀ (l r : List ℚ), (∀ x ∈ l, x = 0) → (∀ x ∈ r, x = 0) →
    ∀ x ∈ List.zipWith (fun a b => (a + b) / 2) l r, x = 0
  | [], _, _, _ => by simp
  | _ :: _, [], _, _ => by simp
  | a :: l, b :: r, hl, hr => by
      intro x hx
      simp only [List.zipWith_cons_cons, List.mem_cons] at hx
      rcases hx with rfl | hx
      · rw [hl a (by simp), hr b (by simp)]
        norm_num
      · exact zipWith_avg_zero l r (fun y hy => hl y (by simp [hy]))
          (fun y hy => hr y (by simp [hy])) x hx

theorem rms_all_zero (l : List ℚ) (h : ∀ x ∈ l, x = 0) : rms l = 0 := by
  unfold rms
  have hs : (l.map fun x : ℚ => ((x : ℝ)) ^ 2).sum = 0 := by
    apply List.sum_eq_zero
    intro y hy
    simp only [List.mem_map] at hy
    obtain ⟨x, hx, rfl⟩ := hy
    rw [h x hx]
    norm_num
  rw [hs, zero_div, Real.sqrt_zero]

theorem db_level_zero_rms : db_level 0 = -200 := by
  unfold db_level
  rw [max_eq_right (by norm_num : (0 : ℝ) ≤ 1e-10)]
  rw [show ((1e-10 : ℝ)) = ((10 : ℝ) ^ (10 : ℕ))⁻¹ by norm_num]
  rw [Real.logb_inv, Real.logb_pow, Real.logb_self_eq_one (by norm_num)]
  norm_num

/-- C7: on any all-zero chunk (non-empty; for stereo, whole frames, so an
even sample count) the level path computes `rms = 0`, the `1e-10` floor
inside `20 * log10(max(rms, 1e-10))` applies, and the emitted decibel
value is the real number `-200`, which is at most `-199.9` (in
particular it is a finite real, not an infinity and not a NaN). -/
theorem level_meter_silence_floor {α : Type} [Mul α] (gainLin : ℚ → α)
    (rfft : List ℚ → Except String (List α)) (irfft : List α → ℕ → Except String (List ℚ))
    (gain sample_rate : ℚ) (eq_gains : List ℚ) (channels : ℕ) (io_out : Bool)
    (chunk : List ℤ) (hz : ∀ s ∈ chunk, s = 0) (hne : chunk ≠ [])
    (hch : channels = 1 ∨ (channels = 2 ∧ Even chunk.length)) :
    (process_audio gainLin rfft irfft gain sample_rate eq_gains channels io_out chunk).emitted
        = some (-200) ∧ ((-200 : ℝ)) ≤ -199.9 := by
  refine ⟨?_, by norm_num⟩
  have hie : chunk.isEmpty = false := by
    cases chunk with
    | nil => exact absurd rfl hne
    | cons a l => rfl
  have haf : ∀ x ∈ chunk.map fun s : ℤ => (s : ℚ) / 32768, x = 0 := by
    intro x hx
    simp only [List.mem_map] at hx
    obtain ⟨s, hs, rfl⟩ := hx
    rw [hz s hs]
    norm_num
  obtain ⟨monoL, hmatch, hmono⟩ : ∃ monoL,
      (if channels = 2 then stereo_mono (chunk.map fun s : ℤ => (s : ℚ) / 32768)
        else Except.ok (chunk.map fun s : ℤ => (s : ℚ) / 32768)) = Except.ok monoL ∧
      ∀ x ∈ monoL, x = 0 := by
    rcases hch with hc1 | ⟨hc2, heven⟩
    · subst hc1
      exact ⟨_, by norm_num, haf⟩
    · subst hc2
      have hlen : (evens (chunk.map fun s : ℤ => (s : ℚ) / 32768)).length =
          (odds (chunk.map fun s : ℤ => (s : ℚ) / 32768)).length := by
        rw [evens_length, odds_length, List.length_map]
        obtain ⟨r, hr⟩ := heven
        omega
      refine ⟨List.zipWith (fun l r => (l + r) / 2)
          (evens (chunk.map fun s : ℤ => (s : ℚ) / 32768))
          (odds (chunk.map fun s : ℤ => (s : ℚ) / 32768)), ?_, ?_⟩
      · rw [if_pos rfl]
        unfold stereo_mono
        rw [if_pos hlen]
      · exact zipWith_avg_zero _ _ (fun y hy => haf y (mem_evens_of hy))
          (fun y hy => haf y (mem_odds_of hy))
  simp only [process_audio, process_audio_body, hie, Bool.false_eq_true, if_false, hmatch]
  rw [rms_all_zero monoL hmono, db_level_zero_rms]

theorem level_meter_silence_floor_witness :
    (process_audio (fun g : ℚ => g) (fun _ => Except.ok ([] : List ℚ)) (fun l _ => Except.ok l)
        1 44100 (List.replicate 10 0) 2 true [0, 0]).emitted = some (-200) :=
  (level_meter_silence_floor (fun g : ℚ => g) (fun _ => Except.ok ([] : List ℚ))
      (fun l _ => Except.ok l) 1 44100 (List.replicate 10 0) 2 true [0, 0]
      (by norm_num) (by simp) (Or.inr ⟨rfl, ⟨1, rfl⟩⟩)).1

/-- C4: per-buffer processing never propagates an error.  First two
conjuncts: if the forward or the inverse transform inside `_apply_eq`
fails, `_apply_eq` returns its input buffer unchanged.  Third conjunct:
if the body of `_process_audio` raises, the callback still returns
normally (with no emitted level and no written samples) instead of
propagating the error - one bad buffer does not stop the stream, whose
state the callback never touches. -/
theorem processing_errors_never_propagate :
    (∀ (α : Type) [Mul α] (gainLin : ℚ → α) (rfft : List ℚ → Except String (List α))
        (irfft : List α → ℕ → Except String (List ℚ)) (sample_rate : ℚ)
        (eq_gains audio_data : List ℚ) (e : String),
        rfft audio_data = .error e →
        apply_eq gainLin rfft irfft sample_rate eq_gains audio_data = audio_data) ∧
      (∀ (α : Type) [Mul α] (gainLin : ℚ → α) (rfft : List ℚ → Except String (List α))
        (irfft : List α → ℕ → Except String (List ℚ)) (sample_rate : ℚ)
        (eq_gains audio_data : List ℚ) (fft_data : List α) (e : String),
        rfft audio_data = .ok fft_data →
        irfft (applyBands gainLin (rfftfreq audio_data.length (1 / sample_rate)) fft_data
            (eq_frequencies.zip eq_gains)) audio_data.length = .error e →
        apply_eq gainLin rfft irfft sample_rate eq_gains audio_data = audio_data) ∧
      (∀ (α : Type) [Mul α] (gainLin : ℚ → α) (rfft : List ℚ → Except String (List α))
        (irfft : List α → ℕ → Except String (List ℚ)) (gain sample_rate : ℚ)
        (eq_gains : List ℚ) (channels : ℕ) (io_out : Bool) (chunk : List ℤ) (e : String),
        process_audio_body gainLin rfft irfft gain sample_rate eq_gains channels io_out chunk
            = .error e →
        process_audio gainLin rfft irfft gain sample_rate eq_gains channels io_out chunk
            = ⟨none, none⟩) := by
  refine ⟨?_, ?_, ?_⟩
  · intro α instM gainLin rfft irfft sample_rate eq_gains audio_data e h
    by_cases hall : (eq_gains.all fun g => decide (g = 0)) = true
    · unfold apply_eq
      rw [if_pos hall]
    · unfold apply_eq
      rw [if_neg hall]
      simp only [h]
  · intro α instM gainLin rfft irfft sample_rate eq_gains audio_data fft_data e hok hirr
    by_cases hall : (eq_gains.all fun g => decide (g = 0)) = true
    · unfold apply_eq
      rw [if_pos hall]
    · unfold apply_eq
      rw [if_neg hall]
      simp only [hok, hirr]
  · intro α instM gainLin rfft irfft gain sample_rate eq_gains channels io_out chunk e h
    unfold process_audio
    rw [h]

theorem processing_errors_never_propagate_witness :
    apply_eq (fun g : ℚ => g) (fun _ => Except.error "fft failure") (fun l _ => Except.ok l)
        44100 [1, 0, 0, 0, 0, 0, 0, 0, 0, 0] [3, 4] = [3, 4] ∧
      process_audio (fun g : ℚ => g) (fun _ => Except.ok ([] : List ℚ)) (fun l _ => Except.ok l)
        1 44100 [0, 0, 0, 0, 0, 0, 0, 0, 0, 0] 2 true [0, 0, 0, 0, 0] = ⟨none, none⟩ :=
  ⟨processing_errors_never_propagate.1 ℚ (fun g : ℚ => g) (fun _ => Except.error "fft failure")
      (fun l _ => Except.ok l) 44100 [1, 0, 0, 0, 0, 0, 0, 0, 0, 0] [3, 4] "fft failure" rfl,
    processing_errors_never_propagate.2.2 ℚ (fun g : ℚ => g) (fun _ => Except.ok ([] : List ℚ))
      (fun l _ => Except.ok l) 1 44100 [0, 0, 0, 0, 0, 0, 0, 0, 0, 0] 2 true [0, 0, 0, 0, 0]
      "operands could not be broadcast" rfl⟩

/-- C10: the output path is not an exact identity on int16 samples even
with linear gain `1.0` and all equalizer gains zero: the input sample
`-32768` is normalized to `-1`, clipped unchanged, rescaled by `32767`
and truncated to `-32767`, while `32767` becomes `32767/32768 * 32767`,
truncated toward zero to `32766` - the written buffer differs from the
input buffer. -/
theorem int16_rescale_not_identity :
    (process_audio (fun g : ℚ => g) (fun _ => Except.ok ([] : List ℚ)) (fun l _ => Except.ok l)
        1 44100 [0, 0, 0, 0, 0, 0, 0, 0, 0, 0] 2 true [-32768, 32767]).written
        = some [-32767, 32766] ∧
      ([-32767, 32766] : List ℤ) ≠ [-32768, 32767] := by
  constructor
  · norm_num [process_audio, process_audio_body, stereo_mono, evens, odds, interleave,
      apply_eq, np_clip, astype_int16, Int.ceil_neg]
  · decide

/-! ## Stream lifecycle (`AudioManager.start_stream`, `audio.py` lines 78-148)

Qt objects are external; an invocation of `start_stream` is modelled
against a `QtEnv` value recording what each Qt call would do during this
invocation: the device lists returned by enumeration, whether each
constructor or `start()` call succeeds, and the format negotiation
answers.  Every Python exception raised by a Qt call lands in the
`except` clause of lines 131-133, which only returns `False`; the
embedding therefore returns `(false, state-so-far)` at the corresponding
point, keeping all assignments made before the failure. -/

/-- The connection-related fields of `AudioManager`:
`_audio_source`, `_audio_sink`, `_io_device_out`, `_input_device`,
`_output_device`, `_channels`, `_sample_rate`, plus the hardware state
the live source object would report
(`self._audio_source.state() != QAudio.StoppedState`, line 98) and
whether the input connection was started with the callback connected
(lines 124-126). -/
structure StreamState where
  audio_source : Option ℕ
  audio_sink : Option ℕ
  io_device_out : Bool
  source_started : Bool
  source_reports_stopped : Bool
  input_device : Option ℕ
  output_device : Option ℕ
  channels : ℕ
  sample_rate : ℕ
deriving DecidableEq

/-- What the Qt layer does during one `start_stream` invocation. -/
structure QtEnv where
  enum_ok : Bool
  audio_inputs : List ℕ
  audio_outputs : List ℕ
  default_output : ℕ
  format_supported : Bool
  preferred_rate : ℕ
  preferred_channels : ℕ
  source_ctor_ok : Bool
  sink_ctor_ok : Bool
  sink_start_ok : Bool
  source_start_ok : Bool
deriving DecidableEq

/-- `AudioManager.stop_stream` (`audio.py` lines 135-148): stops and
drops both connections; `_input_device` and `_output_device` are kept. -/
def stop_stream (st : StreamState) : StreamState :=
  { st with
    audio_source := none
    audio_sink := none
    io_device_out := false
    source_started := false }

/-- `AudioManager.start_stream` (`audio.py` lines 78-133), one step per
source line: enumeration (line 80), input bounds check (81), output
resolution (86-93), idempotent re-selection guard (95-99), stop of the
previous session (101), device assignment (103-104), format negotiation
(106-118), source and sink construction (120-121), sink start (123),
source start plus callback connection (124-126).  A failing Qt call
makes the `except` clause return `False` with whatever state had been
assigned by then. -/
def start_stream (env : QtEnv) (st : StreamState) (device_id : ℤ) (output_id : Option ℤ) :
    Bool × StreamState :=
  if ¬ env.enum_ok then (false, st)
  else if device_id < 0 ∨ device_id ≥ env.audio_inputs.length then (false, st)
  else
    let new_input := env.audio_inputs.getD device_id.toNat 0
    let new_output :=
      match output_id with
      | none => env.default_output
      | some oid =>
          if oid < 0 ∨ oid ≥ env.audio_outputs.length then env.default_output
          else env.audio_outputs.getD oid.toNat 0
    if st.input_device = some new_input ∧ st.output_device = some new_output ∧
        st.audio_source ≠ none ∧ ¬ st.source_reports_stopped then
      (true, st)
    else
      let st1 := stop_stream st
      let st2 := { st1 with input_device := some new_input, output_device := some new_output }
      let st3 :=
        if env.format_supported then st2
        else { st2 with sample_rate := env.preferred_rate, channels := env.preferred_channels }
      let st4 := { st3 with channels := min st3.channels 2 }
      if ¬ env.source_ctor_ok then (false, st4)
      else
        let st5 := { st4 with audio_source := some new_input }
        if ¬ env.sink_ctor_ok then (false, st5)
        else
          let st6 := { st5 with audio_sink := some new_output }
          if ¬ env.sink_start_ok then (false, st6)
          else
            let st7 := { st6 with io_device_out := true }
            if ¬ env.source_start_ok then (false, st7)
            else (true, { st7 with source_started := true, source_reports_stopped := false })

/-- A session with every connection closed. -/
def closedState : StreamState :=
  { audio_source := none
    audio_sink := none
    io_device_out := false
    source_started := false
    source_reports_stopped := true
    input_device := none
    output_device := none
    channels := 2
    sample_rate := 44100 }

/-- An environment in which every Qt call succeeds except the final
`source.start()` (line 124 returns no usable io device, so line 126
raises), after the sink connection was already started on line 123. -/
def failingSourceStartEnv : QtEnv :=
  { enum_ok := true
    audio_inputs := [7]
    audio_outputs := [9]
    default_output := 9
    format_supported := true
    preferred_rate := 44100
    preferred_channels := 2
    source_ctor_ok := true
    sink_ctor_ok := true
    sink_start_ok := true
    source_start_ok := false }

/-- C5 counterexample: starting from a fully closed session in an
environment where the input `source.start()` fails after the sink was
started, `start_stream` returns `false` - but the sink connection opened
during this same invocation is still open when it returns: nothing is
torn down. -/
theorem failed_start_leaves_connection_open :
    (start_stream failingSourceStartEnv closedState 0 none).1 = false ∧
      closedState.io_device_out = false ∧
      (start_stream failingSourceStartEnv closedState 0 none).2.io_device_out = true ∧
      (start_stream failingSourceStartEnv closedState 0 none).2.audio_sink = some 9 := by
  decide

/-- C5 amended: `start_stream` returns `false` and raises no exception
when the device id is out of range (leaving the state untouched) or when
any Qt call of the open sequence fails after the re-selection guard was
passed; but a failing invocation does not tear down what it already
opened - when `source.start()` fails after the sink was started, the
sink connection remains open until a later `stop_stream` or
`start_stream`. -/
theorem start_stream_failure_behavior (env : QtEnv) (st : StreamState) (device_id : ℤ)
    (output_id : Option ℤ) :
    (env.enum_ok = true → (device_id < 0 ∨ device_id ≥ env.audio_inputs.length) →
      start_stream env st device_id output_id = (false, st)) ∧
      (env.source_ctor_ok = false →
        ¬ (st.input_device = some (env.audio_inputs.getD device_id.toNat 0) ∧
            st.output_device = some (match output_id with
              | none => env.default_output
              | some oid =>
                  if oid < 0 ∨ oid ≥ env.audio_outputs.length then env.default_output
                  else env.audio_outputs.getD oid.toNat 0) ∧
            st.audio_source ≠ none ∧ ¬ st.source_reports_stopped) →
        (start_stream env st device_id output_id).1 = false) ∧
      (env.enum_ok = true → ¬ (device_id < 0 ∨ device_id ≥ env.audio_inputs.length) →
        env.sink_start_ok = true → env.source_start_ok = false →
        ¬ (st.input_device = some (env.audio_inputs.getD device_id.toNat 0) ∧
            st.output_device = some (match output_id with
              | none => env.default_output
              | some oid =>
                  if oid < 0 ∨ oid ≥ env.audio_outputs.length then env.default_output
                  else env.audio_outputs.getD oid.toNat 0) ∧
            st.audio_source ≠ none ∧ ¬ st.source_reports_stopped) →
        env.source_ctor_ok = true → env.sink_ctor_ok = true →
        (start_stream env st device_id output_id).1 = false ∧
          (start_stream env st device_id output_id).2.io_device_out = true) := by
  refine ⟨?_, ?_, ?_⟩
  · intro henum hoor
    unfold start_stream
    rw [if_neg (by simp [henum]), if_pos hoor]
  · intro hctor hguard
    unfold start_stream
    by_cases henum : env.enum_ok = true
    · rw [if_neg (by simp [henum])]
      by_cases hoor : device_id < 0 ∨ device_id ≥ env.audio_inputs.length
      · rw [if_pos hoor]
      · rw [if_neg hoor, if_neg hguard, if_pos (by simp [hctor])]
    · rw [if_pos (by simpa using henum)]
  · intro henum hoor hsink hsrc hguard hctor1 hctor2
    unfold start_stream
    rw [if_neg (by simp [henum]), if_neg hoor, if_neg hguard, if_neg (by simp [hctor1]),
      if_neg (by simp [hctor2]), if_neg (by simp [hsink]), if_pos (by simp [hsrc])]
    exact ⟨rfl, rfl⟩

theorem start_stream_failure_behavior_witness :
    start_stream failingSourceStartEnv closedState 5 none = (false, closedState) ∧
      (start_stream { failingSourceStartEnv with source_ctor_ok := false }
          closedState 0 none).1 = false ∧
      (start_stream failingSourceStartEnv closedState 0 none).1 = false ∧
      (start_stream failingSourceStartEnv closedState 0 none).2.io_device_out = true := by
  refine ⟨?_, ?_, ?_⟩
  · exact (start_stream_failure_behavior failingSourceStartEnv closedState 5 none).1 rfl
      (by decide)
  · exact (start_stream_failure_behavior { failingSourceStartEnv with source_ctor_ok := false }
      closedState 0 none).2.1 rfl (by decide)
  · exact (start_stream_failure_behavior failingSourceStartEnv closedState 0 none).2.2 rfl
      (by decide) rfl rfl (by decide) rfl rfl

/-! ## Device-name normalization (`_normalize_device_name`, `audio.py` lines 8-31)

The codecs of the Python standard library are external; a `Codec` value
packages the decoders the function calls: a decoder returns `none` where
Python raises `UnicodeDecodeError`, `latin1_replace` is the total lossy
`decode("latin1", errors="replace")`, and `latin1_encode` returns `none`
where `encode("latin1")` raises `UnicodeEncodeError`.  Byte strings are
lists of byte values. -/

structure Codec where
  getpreferredencoding : List ℕ → Option String
  utf8 : List ℕ → Option String
  cp1250 : List ℕ → Option String
  cp1251 : List ℕ → Option String
  latin1 : List ℕ → Option String
  latin1_replace : List ℕ → String
  latin1_encode : String → Option (List ℕ)

/-- The decode loop of `audio.py` lines 10-20 and 26-30: try each
decoder in order, return the first decoding that does not raise. -/
def decode_first (decoders : List (List ℕ → Option String)) (raw_bytes : List ℕ) :
    Option String :=
  match decoders with
  | [] => none
  | d :: rest =>
      match d raw_bytes with
      | some s => some s
      | none => decode_first rest raw_bytes

/-- The bytes branch of `_normalize_device_name` (`audio.py` lines 9-21):
system preferred encoding, UTF-8, cp1250, cp1251, Latin-1, then lossy
Latin-1 replacement if every attempt failed. -/
def normalize_bytes (c : Codec) (raw_name : List ℕ) : String :=
  match decode_first [c.getpreferredencoding, c.utf8, c.cp1250, c.cp1251, c.latin1] raw_name with
  | some s => s
  | none => c.latin1_replace raw_name

/-- The text branch of `_normalize_device_name` (`audio.py` lines 22-31):
re-encode to Latin-1 (returning the input unchanged if that raises),
then try UTF-8, cp1250, cp1251, Latin-1 - note: without the system
preferred encoding - returning the input unchanged if every attempt
fails. -/
def normalize_text (c : Codec) (raw_name : String) : String :=
  match c.latin1_encode raw_name with
  | none => raw_name
  | some raw_bytes =>
      match decode_first [c.utf8, c.cp1250, c.cp1251, c.latin1] raw_bytes with
      | some s => s
      | none => raw_name

/-- `_normalize_device_name` (`audio.py` lines 8-31): dispatch on whether
the raw name arrived as bytes or as text. -/
def normalize_device_name (c : Codec) : List ℕ ⊕ String → String
  | .inl raw_bytes => normalize_bytes c raw_bytes
  | .inr raw_name => normalize_text c raw_name

/-- The priority chain as the specification fixes it for both input
shapes: system preferred encoding first, then UTF-8, cp1250, cp1251,
Latin-1. -/
def spec_chain (c : Codec) : List (List ℕ → Option String) :=
  [c.getpreferredencoding, c.utf8, c.cp1250, c.cp1251, c.latin1]

/-- A codec behaving like a system whose preferred encoding is cp1251
(for example a Russian-locale Windows host) handed the one-byte name
`0xE0`: UTF-8 rejects a lone `0xE0` lead byte, while the preferred
encoding cp1251 and the fallbacks cp1250 and latin1 each decode it to a
different character. -/
def cp1251PreferredCodec : Codec :=
  { getpreferredencoding := fun _ => some "cp1251 reading"
    utf8 := fun _ => none
    cp1250 := fun _ => some "cp1250 reading"
    cp1251 := fun _ => some "cp1251 reading"
    latin1 := fun _ => some "latin1 reading"
    latin1_replace := fun _ => "latin1 replace reading"
    latin1_encode := fun _ => some [224] }

/-- C9 counterexample: for a text input the code re-interprets the
re-encoded bytes through `utf-8, cp1250, cp1251, latin1` - the system
preferred encoding is not part of the text-branch chain (`audio.py`
line 26), so the result differs from the first successful decoding of
the five-entry chain the claim fixes for both shapes. -/
theorem text_branch_skips_preferred_encoding :
    normalize_device_name cp1251PreferredCodec (.inr "x") = "cp1250 reading" ∧
      (match decode_first (spec_chain cp1251PreferredCodec) [224] with
        | some s => s
        | none => cp1251PreferredCodec.latin1_replace [224]) = "cp1251 reading" ∧
      normalize_device_name cp1251PreferredCodec (.inr "x") ≠
        (match decode_first (spec_chain cp1251PreferredCodec) [224] with
          | some s => s
          | none => cp1251PreferredCodec.latin1_replace [224]) := by
  refine ⟨rfl, rfl, ?_⟩
  decide

/-- C9 amended: the bytes branch follows the five-entry priority chain
exactly - the result is the first successful decoding among system
preferred encoding, UTF-8, cp1250, cp1251, Latin-1 (so UTF-8-decodable
bytes never fall through to a later entry, and bytes decodable only
under a legacy code page yield that code page reading), with lossy
Latin-1 replacement when every entry fails; the text branch re-encodes
Latin-1-representable text and re-interprets it through the chain
without the preferred-encoding entry (UTF-8, cp1250, cp1251, Latin-1),
and returns text that Latin-1 cannot encode unchanged. -/
theorem normalize_device_name_chains (c : Codec) (raw_bytes : List ℕ) (raw_name : String) :
    (normalize_device_name c (.inl raw_bytes) =
        match decode_first (spec_chain c) raw_bytes with
        | some s => s
        | none => c.latin1_replace raw_bytes) ∧
      (∀ s, c.getpreferredencoding raw_bytes = none → c.utf8 raw_bytes = some s →
        normalize_device_name c (.inl raw_bytes) = s) ∧
      (∀ s, c.getpreferredencoding raw_bytes = none → c.utf8 raw_bytes = none →
        c.cp1250 raw_bytes = none → c.cp1251 raw_bytes = some s →
        normalize_device_name c (.inl raw_bytes) = s) ∧
      (∀ bs, c.latin1_encode raw_name = some bs →
        normalize_device_name c (.inr raw_name) =
          match decode_first [c.utf8, c.cp1250, c.cp1251, c.latin1] bs with
          | some s => s
          | none => raw_name) ∧
      (c.latin1_encode raw_name = none →
        normalize_device_name c (.inr raw_name) = raw_name) := by
  refine ⟨rfl, ?_, ?_, ?_, ?_⟩
  · intro s hpref hutf
    simp [normalize_device_name, normalize_bytes, spec_chain, decode_first, hpref, hutf]
  · intro s hpref hutf h1250 h1251
    simp [normalize_device_name, normalize_bytes, spec_chain, decode_first,
      hpref, hutf, h1250, h1251]
  · intro bs henc
    simp [normalize_device_name, normalize_text, henc]
  · intro henc
    simp [normalize_device_name, normalize_text, henc]

theorem normalize_device_name_chains_witness :
    normalize_device_name cp1251PreferredCodec (.inl [224]) = "cp1251 reading" ∧
      normalize_device_name cp1251PreferredCodec (.inr "x") = "cp1250 reading" := by
  constructor
  · exact ((normalize_device_name_chains cp1251PreferredCodec [224] "x").1).trans rfl
  · exact (((normalize_device_name_chains cp1251PreferredCodec [224] "x").2.2.2.1
      [224] rfl)).trans rfl

end CdAux
